import Mathlib

/-!
Verification development for the threejs_delaunay repository.

Embedding conventions:
* JavaScript numbers are modelled as exact rationals (`ℚ`); the floating
  literal `1e-6` in the collinearity guard becomes `1/1000000`, and the
  repository constants from `Constants.js` are translated verbatim.
* `Math.sqrt` has no total exact counterpart on `ℚ`, so every function that
  calls it takes an explicit parameter `sqrtFn : ℚ → ℚ`; theorems that depend
  on its value hypothesise that it is a genuine square root of the inputs it
  is applied to.  `sqrtQ` below is an executable square root that is exact on
  rationals whose numerator and denominator are perfect squares, used to
  evaluate concrete runs.
* A `THREE.Mesh` point object is the record `Pt`; the JavaScript reference
  semantics (a `Triangle` holds references to point meshes, so point motion is
  visible through the triangle) is modelled by letting `Tri` store indices
  into the owning point list, the "single point table" view.
* `Math.random()` draws are supplied by a stream `r : ℕ → ℚ`; the point with
  index `m` consumes draws `r (2*m)` and `r (2*m+1)`, matching the sequential
  draw order of `applyBrownianMotion`.
-/

/-- A point mesh: mutable position `(x, y)`, velocity `(vx, vy)` and the
immutable origin `(origX, origY)` captured at creation (`mesh.userData`). -/
structure Pt where
  x : ℚ
  y : ℚ
  vx : ℚ
  vy : ℚ
  origX : ℚ
  origY : ℚ
deriving DecidableEq, Repr

instance : Inhabited Pt := ⟨⟨0, 0, 0, 0, 0, 0⟩⟩

/-- A triangle holds references to its three point meshes; references are
modelled as indices into the owning point table. -/
structure Tri where
  p1 : ℕ
  p2 : ℕ
  p3 : ℕ
deriving DecidableEq, Repr

/-- Dereference a point index in the point table. -/
def posAt (pts : List Pt) (i : ℕ) : Pt := pts.getD i default

-- Constants.js, translated verbatim.

namespace PointConstants

def MAX_POINTS : ℕ := 30

end PointConstants

namespace PhysicsConstants

def FRICTION : ℚ := 9/10

def BOUNCE_FACTOR : ℚ := 1/2

end PhysicsConstants

namespace BrownianConstants

def STRENGTH : ℚ := 1/5

def MAX_DISTANCE : ℚ := 5

def RETURN_FORCE : ℚ := 1/10

end BrownianConstants

namespace RepulsionConstants

def RADIUS : ℚ := 100

def STRENGTH : ℚ := 5

end RepulsionConstants

namespace Triangle

/-- The determinant `a` of `Triangle.isPointInCircumcircle` (twice the signed
area of the triangle). -/
def circumA (pts : List Pt) (t : Tri) : ℚ :=
  let x1 := (posAt pts t.p1).x; let y1 := (posAt pts t.p1).y
  let x2 := (posAt pts t.p2).x; let y2 := (posAt pts t.p2).y
  let x3 := (posAt pts t.p3).x; let y3 := (posAt pts t.p3).y
  x1 * (y2 - y3) - y1 * (x2 - x3) + x2 * y3 - x3 * y2

/-- The coefficient `b` of `Triangle.isPointInCircumcircle`. -/
def circumB (pts : List Pt) (t : Tri) : ℚ :=
  let x1 := (posAt pts t.p1).x; let y1 := (posAt pts t.p1).y
  let x2 := (posAt pts t.p2).x; let y2 := (posAt pts t.p2).y
  let x3 := (posAt pts t.p3).x; let y3 := (posAt pts t.p3).y
  (x1 * x1 + y1 * y1) * (y3 - y2) +
    (x2 * x2 + y2 * y2) * (y1 - y3) +
    (x3 * x3 + y3 * y3) * (y2 - y1)

/-- The coefficient `c` of `Triangle.isPointInCircumcircle`. -/
def circumC (pts : List Pt) (t : Tri) : ℚ :=
  let x1 := (posAt pts t.p1).x; let y1 := (posAt pts t.p1).y
  let x2 := (posAt pts t.p2).x; let y2 := (posAt pts t.p2).y
  let x3 := (posAt pts t.p3).x; let y3 := (posAt pts t.p3).y
  (x1 * x1 + y1 * y1) * (x2 - x3) +
    (x2 * x2 + y2 * y2) * (x3 - x1) +
    (x3 * x3 + y3 * y3) * (x1 - x2)

/-- The coefficient `d` of `Triangle.isPointInCircumcircle`. -/
def circumD (pts : List Pt) (t : Tri) : ℚ :=
  let x1 := (posAt pts t.p1).x; let y1 := (posAt pts t.p1).y
  let x2 := (posAt pts t.p2).x; let y2 := (posAt pts t.p2).y
  let x3 := (posAt pts t.p3).x; let y3 := (posAt pts t.p3).y
  (x1 * x1 + y1 * y1) * (x3 * y2 - x2 * y3) +
    (x2 * x2 + y2 * y2) * (x1 * y3 - x3 * y1) +
    (x3 * x3 + y3 * y3) * (x2 * y1 - x1 * y2)

/-- The `centerX` of the circumcircle computation. -/
def circumCenterX (pts : List Pt) (t : Tri) : ℚ :=
  -(circumB pts t) / (2 * circumA pts t)

/-- The `centerY` of the circumcircle computation. -/
def circumCenterY (pts : List Pt) (t : Tri) : ℚ :=
  -(circumC pts t) / (2 * circumA pts t)

/-- The `radiusSquared` of the circumcircle computation. -/
def circumRadiusSq (pts : List Pt) (t : Tri) : ℚ :=
  (circumB pts t * circumB pts t + circumC pts t * circumC pts t -
    4 * circumA pts t * circumD pts t) / (4 * circumA pts t * circumA pts t)

/-- The `distSq` of the circumcircle computation: squared distance from `p` to the
circumcenter. -/
def circumDistSq (pts : List Pt) (t : Tri) (p : Pt) : ℚ :=
  (p.x - circumCenterX pts t) * (p.x - circumCenterX pts t) +
    (p.y - circumCenterY pts t) * (p.y - circumCenterY pts t)

/-- The `Triangle.isPointInCircumcircle(p)` from `PointManager.js`: the point `p`
is strictly inside the circumcircle of `t`, except that a triangle whose
determinant satisfies `|a| < 1e-6` is treated as degenerate and the test
returns `false` unconditionally. -/
def isPointInCircumcircle (pts : List Pt) (t : Tri) (p : Pt) : Bool :=
  if |circumA pts t| < 1/1000000 then false
  else decide (circumDistSq pts t p < circumRadiusSq pts t)

/-- Spec-side definition, from the words of the claims: `p` lies strictly
inside the circumcircle of the (nondegenerate, `a ≠ 0`) triangle `t`, using
the exact determinant circumcenter formulas with no epsilon guard.  The lemma
`circum_vertex_on_circle` below shows the circle of these formulas passes
through all three vertices, so it is the circumcircle. -/
def strictlyInsideCircumcircle (pts : List Pt) (t : Tri) (p : Pt) : Bool :=
  decide (circumA pts t ≠ 0) &&
    decide (circumDistSq pts t p < circumRadiusSq pts t)

/-- Reinterpret an integer as a JavaScript 32-bit unsigned value (the effect
of `>>> 0`; for the purpose of bitwise XOR the signed `ToInt32` coercion of
`^` has the same 32-bit pattern). -/
def toUint32 (z : ℤ) : ℕ := (z % (2 : ℤ) ^ 32).toNat

/-- The `Triangle.getColorSeed()` from `PointManager.js`: XOR-fold of the six
per-vertex products, each floored to an integer, reduced to 32 bits. -/
def getColorSeed (pts : List Pt) (t : Tri) : ℕ :=
  let x1 := toUint32 ⌊(posAt pts t.p1).x * 73856093⌋
  let y1 := toUint32 ⌊(posAt pts t.p1).y * 19349663⌋
  let x2 := toUint32 ⌊(posAt pts t.p2).x * 83492791⌋
  let y2 := toUint32 ⌊(posAt pts t.p2).y * 52801763⌋
  let x3 := toUint32 ⌊(posAt pts t.p3).x * 92083207⌋
  let y3 := toUint32 ⌊(posAt pts t.p3).y * 73856093⌋
  ((((x1 ^^^ y1) ^^^ x2) ^^^ y2) ^^^ x3) ^^^ y3

end Triangle

namespace DelaunayTriangulation

/-- The inner loop of `findDelaunayTriangles`: no point of the set other than
the three vertices passes the circumcircle containment test of `t`. -/
def isDelaunayTri (pts : List Pt) (t : Tri) : Bool :=
  (List.range pts.length).all fun l =>
    (l == t.p1 || l == t.p2 || l == t.p3) ||
      !(Triangle.isPointInCircumcircle pts t (posAt pts l))

/-- The `DelaunayTriangulation.findDelaunayTriangles()`: enumerate index triples
`i < j < k` with the same loop bounds as the source (`i < n-2`, `j < n-1`,
`k < n`) and keep the triangle when no other point is inside its
circumcircle test. -/
def findDelaunayTriangles (pts : List Pt) : List Tri :=
  if pts.length < 3 then []
  else
    (List.range (pts.length - 2)).flatMap fun i =>
      (List.range' (i + 1) (pts.length - 1 - (i + 1))).flatMap fun j =>
        ((List.range' (j + 1) (pts.length - (j + 1))).filter fun k =>
            isDelaunayTri pts ⟨i, j, k⟩).map fun k => (⟨i, j, k⟩ : Tri)

end DelaunayTriangulation

/-- Fuel-driven integer square root (`⌊√n⌋` for every `n < 4 ^ fuel`),
structurally recursive so that it evaluates inside `decide`. -/
def sqrtNatFuel : ℕ → ℕ → ℕ
  | 0, _ => 0
  | fuel + 1, n =>
    if n < 2 then n
    else
      let s := sqrtNatFuel fuel (n / 4) * 2
      if (s + 1) * (s + 1) ≤ n then s + 1 else s

/-- Integer square root with enough fuel for any input below `4 ^ 64`. -/
def natSqrt (n : ℕ) : ℕ := sqrtNatFuel 64 n

/-- Executable square root on `ℚ`, exact whenever the numerator and
denominator are perfect squares (in particular on the square of any
rational); used to instantiate the `sqrtFn` oracle on concrete runs.
Theorems never assume anything about `sqrtQ` beyond what is checked by
`decide` at the concrete inputs of a run. -/
def sqrtQ (q : ℚ) : ℚ := (natSqrt q.num.toNat : ℚ) / (natSqrt q.den : ℚ)

/-- The state of a `PointManager`: the live insertion-ordered point list and
the last added point.  The scene and the shared geometry/material are
rendering collaborator state outside the core. -/
structure PMState where
  points : List Pt
  lastAddedPoint : Option Pt
deriving DecidableEq, Repr

/-- The freshly constructed `PointManager` (`points = []`). -/
def emptyPM : PMState := { points := [], lastAddedPoint := none }

namespace PointManager

/-- The mesh built by `addPoint` at screen coordinates `(sx, sy)` for a window
of size `w × h`: position converted to the centered Three.js coordinate
system, zero velocity, origin equal to the initial position. -/
def mkPoint (w h : ℚ) (c : ℚ × ℚ) : Pt :=
  let threeX := c.1 - w / 2
  let threeY := h / 2 - c.2
  { x := threeX, y := threeY, vx := 0, vy := 0, origX := threeX, origY := threeY }

/-- The `PointManager.addPoint(x, y)`: evict the oldest point first when the list
is at `MAX_POINTS` capacity (`shift`), then append the new mesh and record it
as last added.  `window.innerWidth/Height` are the parameters `w`, `h`. -/
def addPoint (w h : ℚ) (st : PMState) (sx sy : ℚ) : PMState :=
  let pts := if PointConstants.MAX_POINTS ≤ st.points.length
             then st.points.tail else st.points
  let mesh := mkPoint w h (sx, sy)
  { points := pts ++ [mesh], lastAddedPoint := some mesh }

/-- Fold a sequence of `addPoint` calls over the empty manager. -/
def applyAdds (w h : ℚ) (L : List (ℚ × ℚ)) : PMState :=
  L.foldl (fun st c => addPoint w h st c.1 c.2) emptyPM

/-- The `PointManager.applyRepulsionForce(point, other, strength, radius)`: add a
radial impulse to `point` when `0 < distSq < radius²`. -/
def applyRepulsionForce (sqrtFn : ℚ → ℚ) (strength radius : ℚ)
    (point other : Pt) : Pt :=
  let dx := point.x - other.x
  let dy := point.y - other.y
  let distSq := dx * dx + dy * dy
  if distSq < radius * radius ∧ 0 < distSq then
    let dist := sqrtFn distSq
    let force := strength * (1 - dist / radius)
    { point with vx := point.vx + dx / dist * force,
                 vy := point.vy + dy / dist * force }
  else point

/-- The loop of `PointManager.applyRepulsion(newPoint)` over the point list;
the reference-identity test `point === newPoint` is the index test
`m = newIdx`.  (The subsequent `calculateAndDraw` trigger acts on the
triangulation state and is modelled by `DelaunayTriangulation.calculateAndDraw`.) -/
def applyRepulsion (sqrtFn : ℚ → ℚ) (pts : List Pt) (newIdx : ℕ) : List Pt :=
  pts.mapIdx fun m point =>
    if m = newIdx then point
    else applyRepulsionForce sqrtFn RepulsionConstants.STRENGTH
           RepulsionConstants.RADIUS point (posAt pts newIdx)

/-- The `PointManager.applyBrownianMotion()`: each point adds
`(Math.random() - 0.5) * STRENGTH` to each velocity component; the point with
index `m` consumes the draws `r (2*m)` and `r (2*m+1)`. -/
def applyBrownianMotion (r : ℕ → ℚ) (pts : List Pt) : List Pt :=
  pts.mapIdx fun m point =>
    { point with
        vx := point.vx + (r (2 * m) - 1/2) * BrownianConstants.STRENGTH,
        vy := point.vy + (r (2 * m + 1) - 1/2) * BrownianConstants.STRENGTH }

/-- The `PointManager.constrainToOriginalPosition(point, maxDistance, returnForce)`:
when the distance from the origin position exceeds `maxDistance`, pull the
velocity back toward the origin. -/
def constrainToOriginalPosition (sqrtFn : ℚ → ℚ) (maxDistance returnForce : ℚ)
    (point : Pt) : Pt :=
  let dx := point.x - point.origX
  let dy := point.y - point.origY
  let dist := sqrtFn (dx * dx + dy * dy)
  if maxDistance < dist then
    let force := (dist - maxDistance) * returnForce
    { point with vx := point.vx - dx / dist * force,
                 vy := point.vy - dy / dist * force }
  else point

/-- The `PointManager.applyPositionConstraints()`. -/
def applyPositionConstraints (sqrtFn : ℚ → ℚ) (pts : List Pt) : List Pt :=
  pts.map (constrainToOriginalPosition sqrtFn BrownianConstants.MAX_DISTANCE
    BrownianConstants.RETURN_FORCE)

/-- The `PointManager.applyFriction(point, friction)`. -/
def applyFriction (friction : ℚ) (point : Pt) : Pt :=
  { point with vx := point.vx * friction, vy := point.vy * friction }

/-- The `PointManager.constrainToScreen(point, halfWidth, halfHeight, bounceFactor)`:
the four clamp-and-reflect tests, applied sequentially as in the source. -/
def constrainToScreen (halfWidth halfHeight bounceFactor : ℚ) (point : Pt) : Pt :=
  let p1 := if point.x < -halfWidth
            then { point with x := -halfWidth, vx := -point.vx * bounceFactor }
            else point
  let p2 := if halfWidth < p1.x
            then { p1 with x := halfWidth, vx := -p1.vx * bounceFactor }
            else p1
  let p3 := if p2.y < -halfHeight
            then { p2 with y := -halfHeight, vy := -p2.vy * bounceFactor }
            else p2
  if halfHeight < p3.y
  then { p3 with y := halfHeight, vy := -p3.vy * bounceFactor }
  else p3

/-- The per-point body of the integration loop of `updatePoints`: move by the
velocity, constrain to the screen, apply friction. -/
def integrateOne (screenWidth screenHeight : ℚ) (point : Pt) : Pt :=
  applyFriction PhysicsConstants.FRICTION
    (constrainToScreen (screenWidth / 2) (screenHeight / 2)
      PhysicsConstants.BOUNCE_FACTOR
      { point with x := point.x + point.vx, y := point.y + point.vy })

/-- The `PointManager.updatePoints(screenWidth, screenHeight)`: Brownian motion,
then the origin constraint, then for each point integration, screen clamping
and friction. -/
def updatePoints (sqrtFn : ℚ → ℚ) (r : ℕ → ℚ) (screenWidth screenHeight : ℚ)
    (pts : List Pt) : List Pt :=
  ((applyPositionConstraints sqrtFn (applyBrownianMotion r pts)).map
    (integrateOne screenWidth screenHeight))

/-- The `positionsChanged` flag computed by `updatePoints`: some point has a
position after the update different from its position before it (the first
two phases change only velocities, so the saved `oldX`/`oldY` are the input
positions). -/
def updatePointsChanged (sqrtFn : ℚ → ℚ) (r : ℕ → ℚ)
    (screenWidth screenHeight : ℚ) (pts : List Pt) : Bool :=
  (List.zip pts (updatePoints sqrtFn r screenWidth screenHeight pts)).any
    fun pq => !(pq.1.x == pq.2.x && pq.1.y == pq.2.y)

end PointManager

namespace DelaunayTriangulation

/-- Z-coordinate offset used for triangle drawables (`this.Z_OFFSET`). -/
def Z_OFFSET : ℚ := -1/10

/-- The `DelaunayTriangulation.getTriangleVertices(triangle)`: the three vertex
coordinates at the fixed Z offset, read from the current point positions. -/
def getTriangleVertices (pts : List Pt) (t : Tri) : List (ℚ × ℚ × ℚ) :=
  [((posAt pts t.p1).x, (posAt pts t.p1).y, Z_OFFSET),
   ((posAt pts t.p2).x, (posAt pts t.p2).y, Z_OFFSET),
   ((posAt pts t.p3).x, (posAt pts t.p3).y, Z_OFFSET)]

/-- The vertex array for the three edges of a triangle drawable: each edge
contributes its start and end vertex (`[v0,v1, v1,v2, v2,v0]`), the content of
both the `BufferGeometry` built by `drawTriangle` and the `Float32Array`
pushed by `updateTrianglePositions`. -/
def lineVertices (pts : List Pt) (t : Tri) : List (ℚ × ℚ × ℚ) :=
  [((posAt pts t.p1).x, (posAt pts t.p1).y, Z_OFFSET),
   ((posAt pts t.p2).x, (posAt pts t.p2).y, Z_OFFSET),
   ((posAt pts t.p2).x, (posAt pts t.p2).y, Z_OFFSET),
   ((posAt pts t.p3).x, (posAt pts t.p3).y, Z_OFFSET),
   ((posAt pts t.p3).x, (posAt pts t.p3).y, Z_OFFSET),
   ((posAt pts t.p1).x, (posAt pts t.p1).y, Z_OFFSET)]

/-- One entry of `this.meshes`: the drawable of one triangle.  The color is
recorded through its seed (the pastel conversion is the external color
utility collaborator); `positions` is the edge vertex data of the geometry. -/
structure MeshObj where
  triangle : Tri
  colorSeed : ℕ
  positions : List (ℚ × ℚ × ℚ)
deriving DecidableEq, Repr

/-- The state of a `DelaunayTriangulation`: the triangle list and the
drawable side table. -/
structure DTState where
  triangles : List Tri
  meshes : List MeshObj
deriving DecidableEq, Repr

/-- The `DelaunayTriangulation.drawTriangle(triangle)`: build the drawable of one
triangle from the current point positions. -/
def drawTriangle (pts : List Pt) (t : Tri) : MeshObj :=
  { triangle := t,
    colorSeed := Triangle.getColorSeed pts t,
    positions := lineVertices pts t }

/-- The `DelaunayTriangulation.clearTriangleMeshes()`: remove every drawable from
the scene, dispose its geometry and material, and empty the mesh list. -/
def clearTriangleMeshes (st : DTState) : DTState := { st with meshes := [] }

/-- The `DelaunayTriangulation.calculateAndDraw()`: clear the drawables, then if
the point set has at least 3 points rebuild the triangle list and draw each
triangle; with fewer points nothing further happens (in particular
`this.triangles` is left as it was). -/
def calculateAndDraw (pts : List Pt) (st : DTState) : DTState :=
  let st1 := clearTriangleMeshes st
  if 3 ≤ pts.length then
    { triangles := findDelaunayTriangles pts,
      meshes := (findDelaunayTriangles pts).map (drawTriangle pts) }
  else st1

/-- The `DelaunayTriangulation.updateTrianglePositions()`: refresh the vertex data
of every existing drawable from the current point positions; no drawable is
added or removed and the triangle list is untouched. -/
def updateTrianglePositions (pts : List Pt) (st : DTState) : DTState :=
  { st with meshes := st.meshes.map fun m =>
      { m with positions := lineVertices pts m.triangle } }

end DelaunayTriangulation

/-- One animation tick on the point and triangulation state:
`PointManager.updatePoints` followed, when some position changed and a
triangulation is registered (it always is after wiring), by
`DelaunayTriangulation.updateTrianglePositions`. -/
def tick (sqrtFn : ℚ → ℚ) (r : ℕ → ℚ) (screenWidth screenHeight : ℚ)
    (pts : List Pt) (st : DelaunayTriangulation.DTState) :
    List Pt × DelaunayTriangulation.DTState :=
  let pts2 := PointManager.updatePoints sqrtFn r screenWidth screenHeight pts
  if PointManager.updatePointsChanged sqrtFn r screenWidth screenHeight pts
  then (pts2, DelaunayTriangulation.updateTrianglePositions pts2 st)
  else (pts2, st)

-- Rat operations are `@[irreducible]` in Batteries; make them reducible so
-- that concrete runs of the embedding evaluate inside `decide`.
attribute [local semireducible] Rat.add Rat.mul Rat.sub Rat.inv

/-! ### Helper lemmas -/

/-- A degenerate triangle (`|a| < 1e-6`) reports every point as outside. -/
theorem isPointInCircumcircle_degenerate {pts : List Pt} {t : Tri}
    (h : |Triangle.circumA pts t| < 1/1000000) (p : Pt) :
    Triangle.isPointInCircumcircle pts t p = false := by
  unfold Triangle.isPointInCircumcircle
  rw [if_pos h]

/-- On a triangle the epsilon guard accepts, the source containment test and
the exact strict circumcircle test agree. -/
theorem isPointInCircumcircle_eq_strict {pts : List Pt} {t : Tri}
    (h : 1/1000000 ≤ |Triangle.circumA pts t|) (p : Pt) :
    Triangle.isPointInCircumcircle pts t p =
      Triangle.strictlyInsideCircumcircle pts t p := by
  have ha : Triangle.circumA pts t ≠ 0 := by
    intro h0
    rw [h0] at h
    norm_num at h
  unfold Triangle.isPointInCircumcircle Triangle.strictlyInsideCircumcircle
  rw [if_neg (not_lt.mpr h), decide_eq_true ha, Bool.true_and]

/-- The circle computed by the determinant formulas passes through the three
vertices of the triangle, hence it is the circumcircle. -/
theorem circum_vertex_on_circle (pts : List Pt) (t : Tri)
    (h : Triangle.circumA pts t ≠ 0) :
    Triangle.circumDistSq pts t (posAt pts t.p1) = Triangle.circumRadiusSq pts t ∧
    Triangle.circumDistSq pts t (posAt pts t.p2) = Triangle.circumRadiusSq pts t ∧
    Triangle.circumDistSq pts t (posAt pts t.p3) = Triangle.circumRadiusSq pts t := by
  refine ⟨?_, ?_, ?_⟩ <;>
  · unfold Triangle.circumDistSq Triangle.circumRadiusSq
      Triangle.circumCenterX Triangle.circumCenterY
    unfold Triangle.circumA at h ⊢
    unfold Triangle.circumB Triangle.circumC Triangle.circumD
    field_simp
    ring

/-- The inner loop flag `isDelaunay`, characterised pointwise. -/
theorem isDelaunayTri_iff {pts : List Pt} {t : Tri} :
    DelaunayTriangulation.isDelaunayTri pts t = true ↔
      ∀ l < pts.length, l ≠ t.p1 → l ≠ t.p2 → l ≠ t.p3 →
        Triangle.isPointInCircumcircle pts t (posAt pts l) = false := by
  unfold DelaunayTriangulation.isDelaunayTri
  simp only [List.all_eq_true, List.mem_range, Bool.or_eq_true, beq_iff_eq,
    Bool.not_eq_true']
  constructor
  · intro h l hl h1 h2 h3
    rcases h l hl with ((e1 | e2) | e3) | hf
    · exact absurd e1 h1
    · exact absurd e2 h2
    · exact absurd e3 h3
    · exact hf
  · intro h l hl
    by_cases h1 : l = t.p1
    · exact Or.inl (Or.inl (Or.inl h1))
    by_cases h2 : l = t.p2
    · exact Or.inl (Or.inl (Or.inr h2))
    by_cases h3 : l = t.p3
    · exact Or.inl (Or.inr h3)
    · exact Or.inr (h l hl h1 h2 h3)

/-- Membership in the output of `findDelaunayTriangles`: exactly the index
triples `i < j < k` into the point list whose triangle passes the inner
circumcircle check, ordered as the loops produce them. -/
theorem mem_findDelaunayTriangles {pts : List Pt} {t : Tri} :
    t ∈ DelaunayTriangulation.findDelaunayTriangles pts ↔
      t.p1 < t.p2 ∧ t.p2 < t.p3 ∧ t.p3 < pts.length ∧
        DelaunayTriangulation.isDelaunayTri pts t = true := by
  unfold DelaunayTriangulation.findDelaunayTriangles
  by_cases h3 : pts.length < 3
  · rw [if_pos h3]
    simp only [List.not_mem_nil, false_iff]
    rintro ⟨h1, h2, hlen, -⟩
    omega
  · rw [if_neg h3]
    simp only [List.mem_flatMap, List.mem_map, List.mem_filter,
      List.mem_range, List.mem_range'_1]
    constructor
    · rintro ⟨i, hi, j, hj, k, ⟨hk, hd⟩, rfl⟩
      dsimp only at hd ⊢
      exact ⟨by omega, by omega, by omega, hd⟩
    · rintro ⟨h1, h2, hlen, hd⟩
      refine ⟨t.p1, by omega, t.p2, by omega, t.p3, ⟨by omega, ?_⟩, rfl⟩
      exact hd

/-! ### Concrete inputs used by witnesses and counterexamples -/

/-- A resting point at `(x, y)` whose origin is its position. -/
def mkPos (x y : ℚ) : Pt :=
  { x := x, y := y, vx := 0, vy := 0, origX := x, origY := y }

/-- Four points with no three collinear whose first three are nearly
collinear (`a = 1e-7`, below the `1e-6` guard). -/
def ptsNearDeg : List Pt :=
  [mkPos 0 0, mkPos 1 0, mkPos 2 (1/10000000), mkPos (1/2) 1]

/-- Three exactly collinear points on the x axis. -/
def ptsCollinear : List Pt := [mkPos 0 0, mkPos 1 0, mkPos 2 0]

/-! ### C1 -/

/-- C1 counterexample: `ptsNearDeg` has 4 points, no three of them collinear,
yet `findDelaunayTriangles` returns the triangle `(0,1,2)` even though the
remaining point (index 3) is strictly inside the exact circumcircle of that
triangle, because `|a| = 1e-7` falls below the degeneracy guard and the
containment test is skipped.  This refutes the claim that every returned
triangle has zero other points strictly inside its circumcircle. -/
theorem findDelaunayTriangles_near_degenerate_cx :
    3 ≤ ptsNearDeg.length ∧
    (∀ i < 4, ∀ j < 4, ∀ k < 4, i < j → j < k →
      Triangle.circumA ptsNearDeg ⟨i, j, k⟩ ≠ 0) ∧
    (⟨0, 1, 2⟩ : Tri) ∈ DelaunayTriangulation.findDelaunayTriangles ptsNearDeg ∧
    Triangle.strictlyInsideCircumcircle ptsNearDeg ⟨0, 1, 2⟩
      (posAt ptsNearDeg 3) = true :=
  ⟨by decide, by decide, by decide, by decide⟩

/-- C1 (amended): the list returned by `findDelaunayTriangles` contains
exactly the index triples `i < j < k` of the current point sequence for which
no other point of the set passes the implemented circumcircle
containment test (which reports nothing inside for a triangle with
`|a| < 1e-6`); for triples the `1e-6` guard accepts, that test coincides
with exact strict mathematical circumcircle containment. -/
theorem findDelaunayTriangles_characterization (pts : List Pt) :
    (∀ t : Tri, t ∈ DelaunayTriangulation.findDelaunayTriangles pts ↔
      (t.p1 < t.p2 ∧ t.p2 < t.p3 ∧ t.p3 < pts.length ∧
        ∀ l < pts.length, l ≠ t.p1 → l ≠ t.p2 → l ≠ t.p3 →
          Triangle.isPointInCircumcircle pts t (posAt pts l) = false)) ∧
    (∀ t : Tri, ∀ p : Pt, 1/1000000 ≤ |Triangle.circumA pts t| →
      Triangle.isPointInCircumcircle pts t p =
        Triangle.strictlyInsideCircumcircle pts t p) := by
  constructor
  · intro t
    rw [mem_findDelaunayTriangles, isDelaunayTri_iff]
  · intro t p h
    exact isPointInCircumcircle_eq_strict h p

/-- C1 witness: the characterization applied at `ptsNearDeg`: the triple
`(0,1,3)` is nondegenerate, so its containment test is the exact one, and it
is a member of the returned list. -/
theorem findDelaunayTriangles_characterization_witness :
    ((⟨0, 1, 3⟩ : Tri) ∈ DelaunayTriangulation.findDelaunayTriangles ptsNearDeg) ∧
    Triangle.isPointInCircumcircle ptsNearDeg ⟨0, 1, 3⟩ (posAt ptsNearDeg 2) =
      Triangle.strictlyInsideCircumcircle ptsNearDeg ⟨0, 1, 3⟩ (posAt ptsNearDeg 2) :=
  ⟨((findDelaunayTriangles_characterization ptsNearDeg).1 ⟨0, 1, 3⟩).mpr
      ⟨by decide, by decide, by decide, by decide⟩,
    (findDelaunayTriangles_characterization ptsNearDeg).2 ⟨0, 1, 3⟩
      (posAt ptsNearDeg 2) (by decide)⟩

/-! ### C2 -/

/-- C2 counterexample: the three exactly collinear points `(0,0)`, `(1,0)`,
`(2,0)` form a degenerate triangle (`a = 0`), and that triangle IS in the
list returned by `findDelaunayTriangles`, refuting the claim that a collinear
triple is never retained and that `|a| < 1e-6` triangles are excluded. -/
theorem collinear_triangle_retained_cx :
    Triangle.circumA ptsCollinear ⟨0, 1, 2⟩ = 0 ∧
    (⟨0, 1, 2⟩ : Tri) ∈ DelaunayTriangulation.findDelaunayTriangles ptsCollinear :=
  ⟨by decide, by decide⟩

/-- C2 (amended): a triangle of three collinear points has determinant
`a = 0`, so its circumcircle containment test returns `false` for every
point; consequently such a triangle is never excluded by the Delaunay filter
and is always present in the returned list (the opposite of exclusion). -/
theorem collinear_triangle_always_retained (pts : List Pt) (i j k : ℕ)
    (hij : i < j) (hjk : j < k) (hk : k < pts.length)
    (hcol : Triangle.circumA pts ⟨i, j, k⟩ = 0) :
    (∀ p : Pt, Triangle.isPointInCircumcircle pts ⟨i, j, k⟩ p = false) ∧
    (⟨i, j, k⟩ : Tri) ∈ DelaunayTriangulation.findDelaunayTriangles pts := by
  have hdeg : |Triangle.circumA pts (⟨i, j, k⟩ : Tri)| < 1/1000000 := by
    rw [hcol]
    norm_num
  refine ⟨fun p => isPointInCircumcircle_degenerate hdeg p, ?_⟩
  rw [mem_findDelaunayTriangles]
  refine ⟨hij, hjk, hk, ?_⟩
  rw [isDelaunayTri_iff]
  intro l _ _ _ _
  exact isPointInCircumcircle_degenerate hdeg _

/-- C2 witness: the amended statement applied to the concrete collinear set. -/
theorem collinear_triangle_always_retained_witness :
    (∀ p : Pt, Triangle.isPointInCircumcircle ptsCollinear ⟨0, 1, 2⟩ p = false) ∧
    (⟨0, 1, 2⟩ : Tri) ∈ DelaunayTriangulation.findDelaunayTriangles ptsCollinear :=
  collinear_triangle_always_retained ptsCollinear 0 1 2
    (by decide) (by decide) (by decide) (by decide)

/-! ### C3 -/

/-- One `addPoint` call keeps the point list within capacity. -/
theorem addPoint_length_le (w h : ℚ) (st : PMState)
    (hst : st.points.length ≤ 30) (sx sy : ℚ) :
    (PointManager.addPoint w h st sx sy).points.length ≤ 30 := by
  unfold PointManager.addPoint PointConstants.MAX_POINTS
  by_cases hc : (30 : ℕ) ≤ st.points.length
  · simp only [if_pos hc, List.length_append, List.length_tail,
      List.length_cons, List.length_nil]
    omega
  · simp only [if_neg hc, List.length_append, List.length_cons, List.length_nil]
    omega

/-- Folding `addPoint` over any start state keeps capacity. -/
theorem foldl_addPoint_length (w h : ℚ) (L : List (ℚ × ℚ)) :
    ∀ st : PMState, st.points.length ≤ 30 →
      (L.foldl (fun st c => PointManager.addPoint w h st c.1 c.2)
        st).points.length ≤ 30 := by
  induction L with
  | nil => intro st hst; exact hst
  | cons c L ih =>
    intro st hst
    exact ih _ (addPoint_length_le w h st hst c.1 c.2)

/-- While the fold stays within capacity, no eviction happens and the points
are appended in insertion order. -/
theorem foldl_addPoint_no_evict (w h : ℚ) (L : List (ℚ × ℚ)) :
    ∀ st : PMState, st.points.length + L.length ≤ 30 →
      (L.foldl (fun st c => PointManager.addPoint w h st c.1 c.2) st).points =
        st.points ++ L.map (PointManager.mkPoint w h) := by
  induction L with
  | nil => intro st _; simp
  | cons c L ih =>
    intro st hst
    simp only [List.length_cons] at hst
    have hlt : ¬ PointConstants.MAX_POINTS ≤ st.points.length := by
      unfold PointConstants.MAX_POINTS
      omega
    have hstep : (PointManager.addPoint w h st c.1 c.2).points =
        st.points ++ [PointManager.mkPoint w h c] := by
      unfold PointManager.addPoint
      rw [if_neg hlt]
    have := ih (PointManager.addPoint w h st c.1 c.2) (by rw [hstep]; simp; omega)
    rw [List.foldl_cons, this, hstep, List.map_cons, List.append_assoc]
    rfl

/-- C3: starting from an empty `PointManager`, every sequence of `addPoint`
calls leaves an insertion-ordered point list of length at most
`MAX_POINTS = 30`, and a sequence of 31 insertions leaves exactly the 30
most-recently-inserted points in their original relative order, the
first-ever point having been evicted (FIFO). -/
theorem addPoint_fifo (w h : ℚ) (L : List (ℚ × ℚ)) (h31 : L.length = 31) :
    (∀ M : List (ℚ × ℚ),
      (PointManager.applyAdds w h M).points.length ≤ PointConstants.MAX_POINTS) ∧
    (PointManager.applyAdds w h L).points =
      (L.map (PointManager.mkPoint w h)).drop 1 ∧
    (PointManager.applyAdds w h L).points.length = 30 := by
  have hbound : ∀ M : List (ℚ × ℚ),
      (PointManager.applyAdds w h M).points.length ≤ PointConstants.MAX_POINTS := by
    intro M
    unfold PointManager.applyAdds PointConstants.MAX_POINTS
    exact foldl_addPoint_length w h M emptyPM (by simp [emptyPM])
  rcases List.eq_nil_or_concat L with rfl | ⟨M, c, rfl⟩
  · simp at h31
  · rw [List.concat_eq_append] at h31 ⊢
    have hM : M.length = 30 := by
      simp only [List.length_append, List.length_cons, List.length_nil] at h31
      omega
    have hMfold : (PointManager.applyAdds w h M).points =
        M.map (PointManager.mkPoint w h) := by
      unfold PointManager.applyAdds
      have := foldl_addPoint_no_evict w h M emptyPM (by simp [emptyPM, hM])
      simpa [emptyPM] using this
    have hfold : PointManager.applyAdds w h (M ++ [c]) =
        PointManager.addPoint w h (PointManager.applyAdds w h M) c.1 c.2 := by
      unfold PointManager.applyAdds
      rw [List.foldl_append, List.foldl_cons, List.foldl_nil]
    have hfull : PointConstants.MAX_POINTS ≤
        (PointManager.applyAdds w h M).points.length := by
      rw [hMfold]
      simp [hM, PointConstants.MAX_POINTS]
    have hstep : (PointManager.applyAdds w h (M ++ [c])).points =
        (M.map (PointManager.mkPoint w h)).tail ++ [PointManager.mkPoint w h c] := by
      rw [hfold]
      unfold PointManager.addPoint
      rw [if_pos hfull, hMfold]
    refine ⟨hbound, ?_, ?_⟩
    · rw [hstep, List.map_append, List.map_cons, List.map_nil,
        List.drop_append_of_le_length (by simp [hM]), ← List.drop_one]
    · rw [hstep]
      simp [hM]

/-- C3 witness: the FIFO statement at a concrete list of 31 insertions. -/
theorem addPoint_fifo_witness :
    (∀ M : List (ℚ × ℚ),
      (PointManager.applyAdds 100 100 M).points.length ≤ PointConstants.MAX_POINTS) ∧
    (PointManager.applyAdds 100 100
        (List.replicate 31 ((7 : ℚ), (9 : ℚ)))).points =
      ((List.replicate 31 ((7 : ℚ), (9 : ℚ))).map
        (PointManager.mkPoint 100 100)).drop 1 ∧
    (PointManager.applyAdds 100 100
        (List.replicate 31 ((7 : ℚ), (9 : ℚ)))).points.length = 30 :=
  addPoint_fifo 100 100 _ (List.length_replicate 31 _)

/-! ### C4 -/

/-- Evaluation of `updatePoints` on a one-point list. -/
theorem updatePoints_singleton (sqrtFn : ℚ → ℚ) (r : ℕ → ℚ) (w h : ℚ) (p : Pt) :
    PointManager.updatePoints sqrtFn r w h [p] =
      [PointManager.integrateOne w h
        (PointManager.constrainToOriginalPosition sqrtFn
          BrownianConstants.MAX_DISTANCE BrownianConstants.RETURN_FORCE
          { p with vx := p.vx + (r 0 - 1/2) * BrownianConstants.STRENGTH,
                   vy := p.vy + (r 1 - 1/2) * BrownianConstants.STRENGTH })] := rfl

/-- A point 5 units beyond the right screen edge (halfWidth 100) moving
right at 3, with its origin at its position. -/
def pBounce : Pt := { x := 105, y := 0, vx := 3, vy := 0, origX := 105, origY := 0 }

/-- C4 counterexample: after one `updatePoints` call with zero Brownian noise
(midpoint draws), the point ends at `x = halfWidth` as claimed but with
`vx = -27/20 = -3 * BOUNCE_FACTOR * FRICTION`, not `-3 * BOUNCE_FACTOR`:
friction is applied after the bounce, so the claimed velocity is wrong. -/
theorem updatePoints_bounce_cx :
    PointManager.updatePoints sqrtQ (fun _ => 1/2) 200 200 [pBounce] =
      [{ x := 100, y := 0, vx := -27/20, vy := 0, origX := 105, origY := 0 }] ∧
    (-27/20 : ℚ) ≠ -3 * PhysicsConstants.BOUNCE_FACTOR :=
  ⟨by decide, by decide⟩


/-- When the point is within `maxDistance` of its origin (as measured through
the supplied square-root oracle), the origin constraint leaves it unchanged. -/
theorem constrainToOriginalPosition_eq_self (sqrtFn : ℚ → ℚ)
    (maxDistance returnForce : ℚ) (p : Pt)
    (h : sqrtFn ((p.x - p.origX) * (p.x - p.origX) +
      (p.y - p.origY) * (p.y - p.origY)) ≤ maxDistance) :
    PointManager.constrainToOriginalPosition sqrtFn maxDistance returnForce p = p := by
  unfold PointManager.constrainToOriginalPosition
  rw [if_neg (not_lt.mpr h)]

/-- Evaluation of `constrainToScreen` when only the right-edge clamp fires. -/
theorem constrainToScreen_right (hw2 hh2 b : ℚ) (p : Pt)
    (h1 : ¬(p.x < -hw2)) (h2 : hw2 < p.x)
    (h3 : ¬(p.y < -hh2)) (h4 : ¬(hh2 < p.y)) :
    PointManager.constrainToScreen hw2 hh2 b p =
      { p with x := hw2, vx := -p.vx * b } := by
  unfold PointManager.constrainToScreen
  dsimp only
  rw [if_neg h1, if_pos h2]
  dsimp only
  rw [if_neg h3, if_neg h4]

/-- C4 (amended): with zero Brownian noise (midpoint draws) and the point
within `MAX_DISTANCE` of its origin, a point at `x = halfWidth + 5` with
velocity `(3, 0)` ends one `updatePoints` call later at `x = halfWidth`,
`y` unchanged, `vy = 0`, and `vx = -3 * BOUNCE_FACTOR * FRICTION` (the
claimed `-3 * BOUNCE_FACTOR` is further scaled by the friction the update
applies after the bounce). -/
theorem updatePoints_bounce (sqrtFn : ℚ → ℚ) (hw hh y ox oy : ℚ)
    (hw0 : 0 ≤ hw) (hylo : -hh ≤ y) (hyhi : y ≤ hh)
    (hs : sqrtFn ((hw + 5 - ox) * (hw + 5 - ox) + (y - oy) * (y - oy)) ≤
      BrownianConstants.MAX_DISTANCE) :
    PointManager.updatePoints sqrtFn (fun _ => 1/2) (2 * hw) (2 * hh)
      [{ x := hw + 5, y := y, vx := 3, vy := 0, origX := ox, origY := oy }] =
      [{ x := hw, y := y,
         vx := -3 * PhysicsConstants.BOUNCE_FACTOR * PhysicsConstants.FRICTION,
         vy := 0, origX := ox, origY := oy }] := by
  rw [updatePoints_singleton]
  norm_num [BrownianConstants.STRENGTH]
  rw [constrainToOriginalPosition_eq_self sqrtFn _ _ _ (by exact hs)]
  unfold PointManager.integrateOne
  dsimp only
  rw [constrainToScreen_right (2 * hw / 2) (2 * hh / 2)
    PhysicsConstants.BOUNCE_FACTOR _
    (by dsimp only; intro hcon; linarith) (by dsimp only; linarith)
    (by dsimp only; intro hcon; linarith) (by dsimp only; intro hcon; linarith)]
  unfold PointManager.applyFriction PhysicsConstants.BOUNCE_FACTOR
    PhysicsConstants.FRICTION
  dsimp only
  norm_num

/-- C4 witness: the amended bounce statement at a concrete point with the
origin at the starting position (no return force). -/
theorem updatePoints_bounce_witness :
    PointManager.updatePoints sqrtQ (fun _ => 1/2) (2 * 100) (2 * 50)
      [{ x := 100 + 5, y := 7, vx := 3, vy := 0, origX := 105, origY := 7 }] =
      [{ x := 100, y := 7,
         vx := -3 * PhysicsConstants.BOUNCE_FACTOR * PhysicsConstants.FRICTION,
         vy := 0, origX := 105, origY := 7 }] :=
  updatePoints_bounce sqrtQ 100 50 7 105 7 (by norm_num) (by norm_num)
    (by norm_num) (by decide)

/-! ### C5 -/

/-- Pointwise view of the repulsion loop: the point at index `m` (other than
the new point) is replaced by `applyRepulsionForce` of itself against the new
point. -/
theorem posAt_applyRepulsion (sqrtFn : ℚ → ℚ) (pts : List Pt) (newIdx m : ℕ)
    (hm : m < pts.length) (hne : m ≠ newIdx) :
    posAt (PointManager.applyRepulsion sqrtFn pts newIdx) m =
      PointManager.applyRepulsionForce sqrtFn RepulsionConstants.STRENGTH
        RepulsionConstants.RADIUS (posAt pts m) (posAt pts newIdx) := by
  have hm2 : m < (PointManager.applyRepulsion sqrtFn pts newIdx).length := by
    unfold PointManager.applyRepulsion
    rw [List.length_mapIdx]
    exact hm
  have h1 : posAt (PointManager.applyRepulsion sqrtFn pts newIdx) m =
      (PointManager.applyRepulsion sqrtFn pts newIdx).get ⟨m, hm2⟩ :=
    List.getD_eq_get _ _ hm2
  have h3 : posAt pts m = pts.get ⟨m, hm⟩ := List.getD_eq_get _ _ hm
  rw [h1, h3]
  unfold PointManager.applyRepulsion
  rw [List.get_mapIdx _ _ _ hm, if_neg hne]

/-- C5: when `applyRepulsion(newPoint)` runs, every other live point whose
squared distance to the new point is strictly between `0` and `RADIUS²`
receives an impulse of magnitude `STRENGTH * (1 - dist/RADIUS)` directed
along the unit vector from the new point to it, added to its velocity, with
its position untouched; a point exactly coincident with the new point
(squared distance `0`) is left completely unchanged (no impulse, no
division-by-zero artefact). -/
theorem applyRepulsion_spec (sqrtFn : ℚ → ℚ) (pts : List Pt) (newIdx m : ℕ)
    (hm : m < pts.length) (hne : m ≠ newIdx) (dx dy : ℚ)
    (hdx : dx = (posAt pts m).x - (posAt pts newIdx).x)
    (hdy : dy = (posAt pts m).y - (posAt pts newIdx).y) :
    (dx * dx + dy * dy = 0 →
      posAt (PointManager.applyRepulsion sqrtFn pts newIdx) m = posAt pts m) ∧
    (∀ dist : ℚ, dist = sqrtFn (dx * dx + dy * dy) →
      dist * dist = dx * dx + dy * dy → 0 ≤ dist →
      0 < dx * dx + dy * dy →
      dx * dx + dy * dy <
        RepulsionConstants.RADIUS * RepulsionConstants.RADIUS →
      (posAt (PointManager.applyRepulsion sqrtFn pts newIdx) m).x =
          (posAt pts m).x ∧
      (posAt (PointManager.applyRepulsion sqrtFn pts newIdx) m).y =
          (posAt pts m).y ∧
      (posAt (PointManager.applyRepulsion sqrtFn pts newIdx) m).vx =
          (posAt pts m).vx + dx / dist *
            (RepulsionConstants.STRENGTH * (1 - dist / RepulsionConstants.RADIUS)) ∧
      (posAt (PointManager.applyRepulsion sqrtFn pts newIdx) m).vy =
          (posAt pts m).vy + dy / dist *
            (RepulsionConstants.STRENGTH * (1 - dist / RepulsionConstants.RADIUS)) ∧
      ((posAt (PointManager.applyRepulsion sqrtFn pts newIdx) m).vx -
            (posAt pts m).vx) *
          ((posAt (PointManager.applyRepulsion sqrtFn pts newIdx) m).vx -
            (posAt pts m).vx) +
        ((posAt (PointManager.applyRepulsion sqrtFn pts newIdx) m).vy -
            (posAt pts m).vy) *
          ((posAt (PointManager.applyRepulsion sqrtFn pts newIdx) m).vy -
            (posAt pts m).vy) =
        (RepulsionConstants.STRENGTH * (1 - dist / RepulsionConstants.RADIUS)) *
          (RepulsionConstants.STRENGTH * (1 - dist / RepulsionConstants.RADIUS)) ∧
      0 < RepulsionConstants.STRENGTH * (1 - dist / RepulsionConstants.RADIUS)) := by
  rw [posAt_applyRepulsion sqrtFn pts newIdx m hm hne]
  unfold PointManager.applyRepulsionForce
  rw [← hdx, ← hdy]
  constructor
  · intro h0
    rw [if_neg]
    rintro ⟨-, hpos⟩
    rw [h0] at hpos
    exact lt_irrefl 0 hpos
  · intro dist hdist hsq hnn hpos hlt
    rw [if_pos ⟨hlt, hpos⟩, ← hdist]
    have hdist0 : dist ≠ 0 := by
      intro h0
      rw [h0, mul_zero] at hsq
      exact absurd hsq.symm (ne_of_gt hpos)
    have hltR : dist < RepulsionConstants.RADIUS := by
      unfold RepulsionConstants.RADIUS at hlt ⊢
      nlinarith
    have hforce : 0 < RepulsionConstants.STRENGTH *
        (1 - dist / RepulsionConstants.RADIUS) := by
      unfold RepulsionConstants.STRENGTH RepulsionConstants.RADIUS at hltR ⊢
      have hq : dist / 100 < 1 := by linarith
      linarith
    refine ⟨rfl, rfl, rfl, rfl, ?_, hforce⟩
    dsimp only
    have hx : (posAt pts m).vx + dx / dist *
          (RepulsionConstants.STRENGTH * (1 - dist / RepulsionConstants.RADIUS)) -
        (posAt pts m).vx =
        dx / dist *
          (RepulsionConstants.STRENGTH * (1 - dist / RepulsionConstants.RADIUS)) := by
      ring
    have hy : (posAt pts m).vy + dy / dist *
          (RepulsionConstants.STRENGTH * (1 - dist / RepulsionConstants.RADIUS)) -
        (posAt pts m).vy =
        dy / dist *
          (RepulsionConstants.STRENGTH * (1 - dist / RepulsionConstants.RADIUS)) := by
      ring
    rw [hx, hy]
    have hexp : dx / dist *
          (RepulsionConstants.STRENGTH * (1 - dist / RepulsionConstants.RADIUS)) *
        (dx / dist *
          (RepulsionConstants.STRENGTH * (1 - dist / RepulsionConstants.RADIUS))) +
        dy / dist *
          (RepulsionConstants.STRENGTH * (1 - dist / RepulsionConstants.RADIUS)) *
        (dy / dist *
          (RepulsionConstants.STRENGTH * (1 - dist / RepulsionConstants.RADIUS))) =
        (dx * dx + dy * dy) / (dist * dist) *
          ((RepulsionConstants.STRENGTH * (1 - dist / RepulsionConstants.RADIUS)) *
            (RepulsionConstants.STRENGTH * (1 - dist / RepulsionConstants.RADIUS))) := by
      ring
    rw [hexp, ← hsq, div_self (mul_ne_zero hdist0 hdist0), one_mul]

/-- C5 witness: concrete repulsion at distance 5 (between two points at
`(0,0)` and `(3,4)`): the impulse is `(3/5, 4/5) * 5 * (1 - 5/100)`. -/
theorem applyRepulsion_spec_witness :
    (posAt (PointManager.applyRepulsion sqrtQ [mkPos 0 0, mkPos 3 4] 0) 1).vx =
        57/20 ∧
    (posAt (PointManager.applyRepulsion sqrtQ [mkPos 0 0, mkPos 3 4] 0) 1).vy =
        19/5 := by
  have h := (applyRepulsion_spec sqrtQ [mkPos 0 0, mkPos 3 4] 0 1 (by decide)
    (by decide) 3 4 (by decide) (by decide)).2 (sqrtQ (3 * 3 + 4 * 4)) rfl
    (by decide) (by decide) (by decide) (by decide)
  refine ⟨?_, ?_⟩
  · rw [h.2.2.1]
    decide
  · rw [h.2.2.2.1]
    decide

/-! ### C6 -/

/-- A triangulation state holding a stale triangle and no drawables. -/
def dtStale : DelaunayTriangulation.DTState :=
  { triangles := [⟨0, 1, 2⟩], meshes := [] }

/-- C6 counterexample: `calculateAndDraw` on a point set with fewer than 3
points does not empty the triangle list; a stale triangle survives. -/
theorem calculateAndDraw_stale_cx :
    ([] : List Pt).length < 3 ∧
    (DelaunayTriangulation.calculateAndDraw [] dtStale).triangles =
      [⟨0, 1, 2⟩] ∧
    (DelaunayTriangulation.calculateAndDraw [] dtStale).triangles ≠ [] :=
  ⟨by decide, by decide, by decide⟩

/-- C6 (amended): `calculateAndDraw` always clears the drawable list first;
with at least 3 points it rebuilds the triangle list from scratch via
`findDelaunayTriangles` and creates exactly one drawable per retained
triangle; with fewer than 3 points the drawables stay cleared but the
triangle list is left unchanged (it is NOT emptied). -/
theorem calculateAndDraw_spec (pts : List Pt)
    (st : DelaunayTriangulation.DTState) :
    (pts.length < 3 →
      (DelaunayTriangulation.calculateAndDraw pts st).meshes = [] ∧
      (DelaunayTriangulation.calculateAndDraw pts st).triangles =
        st.triangles) ∧
    (3 ≤ pts.length →
      (DelaunayTriangulation.calculateAndDraw pts st).triangles =
        DelaunayTriangulation.findDelaunayTriangles pts ∧
      (DelaunayTriangulation.calculateAndDraw pts st).meshes =
        (DelaunayTriangulation.findDelaunayTriangles pts).map
          (DelaunayTriangulation.drawTriangle pts) ∧
      (DelaunayTriangulation.calculateAndDraw pts st).meshes.map
          DelaunayTriangulation.MeshObj.triangle =
        (DelaunayTriangulation.calculateAndDraw pts st).triangles) := by
  unfold DelaunayTriangulation.calculateAndDraw
    DelaunayTriangulation.clearTriangleMeshes
  constructor
  · intro hlt
    rw [if_neg (by omega)]
    exact ⟨rfl, rfl⟩
  · intro hge
    rw [if_pos hge]
    refine ⟨rfl, rfl, ?_⟩
    dsimp only
    rw [List.map_map,
      show DelaunayTriangulation.MeshObj.triangle ∘
          DelaunayTriangulation.drawTriangle pts = id from rfl,
      List.map_id]

/-- C6 witness: the amended statement at the concrete stale state with an
empty point list. -/
theorem calculateAndDraw_spec_witness :
    (DelaunayTriangulation.calculateAndDraw [] dtStale).meshes = [] ∧
    (DelaunayTriangulation.calculateAndDraw [] dtStale).triangles =
      dtStale.triangles :=
  (calculateAndDraw_spec [] dtStale).1 (by decide)

/-! ### C7 -/

/-- C7: an animation tick (`updatePoints` followed, when positions changed,
by `updateTrianglePositions`) never changes triangle membership: the triangle
list is identical, the drawable count is identical, each drawable still
belongs to the same triangle (no drawable allocated or dropped), and the
resulting triangulation state is either untouched or exactly the
vertex-coordinate refresh of the old drawables at the updated point
positions. -/
theorem tick_preserves_triangles (sqrtFn : ℚ → ℚ) (r : ℕ → ℚ) (w h : ℚ)
    (pts : List Pt) (st : DelaunayTriangulation.DTState) :
    (tick sqrtFn r w h pts st).2.triangles = st.triangles ∧
    (tick sqrtFn r w h pts st).2.meshes.length = st.meshes.length ∧
    (tick sqrtFn r w h pts st).2.meshes.map DelaunayTriangulation.MeshObj.triangle =
      st.meshes.map DelaunayTriangulation.MeshObj.triangle ∧
    ((tick sqrtFn r w h pts st).2 = st ∨
      (tick sqrtFn r w h pts st).2 =
        DelaunayTriangulation.updateTrianglePositions
          (tick sqrtFn r w h pts st).1 st) := by
  unfold tick
  by_cases hc : PointManager.updatePointsChanged sqrtFn r w h pts = true
  · rw [if_pos hc]
    unfold DelaunayTriangulation.updateTrianglePositions
    refine ⟨rfl, List.length_map _ _, ?_, Or.inr rfl⟩
    dsimp only
    rw [List.map_map]
    rfl
  · rw [if_neg hc]
    exact ⟨rfl, rfl, rfl, Or.inl rfl⟩

/-! ### C8 -/

/-- Evaluation of the origin constraint when the point is beyond
`maxDistance` from its origin. -/
theorem constrainToOriginalPosition_eval (sqrtFn : ℚ → ℚ)
    (maxDistance returnForce : ℚ) (p : Pt) (dist : ℚ)
    (hdist : dist = sqrtFn ((p.x - p.origX) * (p.x - p.origX) +
      (p.y - p.origY) * (p.y - p.origY)))
    (h : maxDistance < dist) :
    PointManager.constrainToOriginalPosition sqrtFn maxDistance returnForce p =
      { p with
          vx := p.vx - (p.x - p.origX) / dist * ((dist - maxDistance) * returnForce),
          vy := p.vy - (p.y - p.origY) / dist * ((dist - maxDistance) * returnForce) } := by
  unfold PointManager.constrainToOriginalPosition
  dsimp only
  rw [← hdist, if_pos h]

/-- Lemma: `constrainToScreen` is the identity when the point is inside the screen
rectangle. -/
theorem constrainToScreen_id (hw2 hh2 b : ℚ) (p : Pt)
    (h1 : ¬(p.x < -hw2)) (h2 : ¬(hw2 < p.x))
    (h3 : ¬(p.y < -hh2)) (h4 : ¬(hh2 < p.y)) :
    PointManager.constrainToScreen hw2 hh2 b p = p := by
  unfold PointManager.constrainToScreen
  dsimp only
  rw [if_neg h1, if_neg h2, if_neg h3, if_neg h4]

/-- A resting point displaced 15 units from its origin along the x axis. -/
def displacedPt : Pt := { x := 15, y := 0, vx := 0, vy := 0, origX := 0, origY := 0 }

/-- One `updatePoints` call with midpoint Brownian draws (zero noise, as the
claimed scenario with Brownian strength 0) on a 4000 by 4000 screen. -/
def quietStep (pts : List Pt) : List Pt :=
  PointManager.updatePoints sqrtQ (fun _ => 1/2) 4000 4000 pts

/-- Squared distance from its origin of the point after `n` quiet steps
starting at `displacedPt`. -/
def quietDistSq (n : ℕ) : ℚ :=
  let q := posAt (quietStep^[n] [displacedPt]) 0
  (q.x - q.origX) * (q.x - q.origX) + (q.y - q.origY) * (q.y - q.origY)

set_option maxRecDepth 100000 in
/-- C8 counterexample: starting at rest 15 units from the origin (beyond
`MAX_DISTANCE = 5`) with zero Brownian noise, the distance to the origin is
NOT monotonically decreasing: the point overshoots past its origin and at the
8th step the squared distance grows.  The oracle `sqrtQ` is an exact square
root at every distance arising in the run, so the refutation is not an
artefact of the square-root model. -/
theorem quiet_run_not_monotone_cx :
    BrownianConstants.MAX_DISTANCE * BrownianConstants.MAX_DISTANCE <
      quietDistSq 0 ∧
    displacedPt.vx = 0 ∧ displacedPt.vy = 0 ∧
    (∀ n < 9, sqrtQ (quietDistSq n) * sqrtQ (quietDistSq n) = quietDistSq n ∧
      0 ≤ sqrtQ (quietDistSq n)) ∧
    quietDistSq 7 < quietDistSq 8 :=
  ⟨by decide, by decide, by decide, by decide, by decide⟩

/-- C8 (amended): the FIRST `updatePoints` call with zero Brownian noise does
strictly decrease the squared distance from origin of a resting point
displaced beyond `MAX_DISTANCE` (when no screen clamp fires); the claimed
monotonicity of the whole iterated sequence fails (see the counterexample),
because the return impulse is not removed and the point overshoots. -/
theorem updatePoints_origin_return_decreases (sqrtFn : ℚ → ℚ) (w h : ℚ)
    (p : Pt) (hvx : p.vx = 0) (hvy : p.vy = 0) (dist nx ny : ℚ)
    (hdist : dist = sqrtFn ((p.x - p.origX) * (p.x - p.origX) +
      (p.y - p.origY) * (p.y - p.origY)))
    (hsq : dist * dist = (p.x - p.origX) * (p.x - p.origX) +
      (p.y - p.origY) * (p.y - p.origY))
    (hgt : BrownianConstants.MAX_DISTANCE < dist)
    (hnx : nx = p.x - (p.x - p.origX) / dist *
      ((dist - BrownianConstants.MAX_DISTANCE) * BrownianConstants.RETURN_FORCE))
    (hny : ny = p.y - (p.y - p.origY) / dist *
      ((dist - BrownianConstants.MAX_DISTANCE) * BrownianConstants.RETURN_FORCE))
    (hx1 : -(w / 2) ≤ nx) (hx2 : nx ≤ w / 2)
    (hy1 : -(h / 2) ≤ ny) (hy2 : ny ≤ h / 2) :
    ((posAt (PointManager.updatePoints sqrtFn (fun _ => 1/2) w h [p]) 0).x -
        (posAt (PointManager.updatePoints sqrtFn (fun _ => 1/2) w h [p]) 0).origX) *
      ((posAt (PointManager.updatePoints sqrtFn (fun _ => 1/2) w h [p]) 0).x -
        (posAt (PointManager.updatePoints sqrtFn (fun _ => 1/2) w h [p]) 0).origX) +
    ((posAt (PointManager.updatePoints sqrtFn (fun _ => 1/2) w h [p]) 0).y -
        (posAt (PointManager.updatePoints sqrtFn (fun _ => 1/2) w h [p]) 0).origY) *
      ((posAt (PointManager.updatePoints sqrtFn (fun _ => 1/2) w h [p]) 0).y -
        (posAt (PointManager.updatePoints sqrtFn (fun _ => 1/2) w h [p]) 0).origY) <
    (p.x - p.origX) * (p.x - p.origX) + (p.y - p.origY) * (p.y - p.origY) := by
  have hdp : 0 < dist := by
    have h5 : (0 : ℚ) < BrownianConstants.MAX_DISTANCE := by
      unfold BrownianConstants.MAX_DISTANCE
      norm_num
    linarith
  rw [updatePoints_singleton,
    constrainToOriginalPosition_eval sqrtFn _ _ _ dist (by exact hdist) hgt]
  unfold PointManager.integrateOne
  dsimp only
  rw [constrainToScreen_id (w / 2) (h / 2) PhysicsConstants.BOUNCE_FACTOR _
    (by
      dsimp only
      unfold BrownianConstants.STRENGTH at *
      intro hcon
      rw [hnx] at hx1
      rw [hvx] at hcon
      linarith)
    (by
      dsimp only
      unfold BrownianConstants.STRENGTH at *
      intro hcon
      rw [hnx] at hx2
      rw [hvx] at hcon
      linarith)
    (by
      dsimp only
      unfold BrownianConstants.STRENGTH at *
      intro hcon
      rw [hny] at hy1
      rw [hvy] at hcon
      linarith)
    (by
      dsimp only
      unfold BrownianConstants.STRENGTH at *
      intro hcon
      rw [hny] at hy2
      rw [hvy] at hcon
      linarith)]
  unfold PointManager.applyFriction posAt
  dsimp only [List.getD]
  simp only [List.get?_cons_zero, Option.getD_some]
  rw [hvx, hvy]
  unfold BrownianConstants.STRENGTH BrownianConstants.MAX_DISTANCE
    BrownianConstants.RETURN_FORCE at *
  rw [← hsq]
  have hf1 : 0 < (dist - 5) * (1/10 : ℚ) := by linarith
  have hf2 : (dist - 5) * (1/10 : ℚ) < dist := by linarith
  have e1 : p.x + (0 + (1/2 - 1/2) * (1/5) -
      (p.x - p.origX) / dist * ((dist - 5) * (1/10))) - p.origX =
      (p.x - p.origX) * (dist - (dist - 5) * (1/10)) / dist := by
    field_simp
    ring
  have e2 : p.y + (0 + (1/2 - 1/2) * (1/5) -
      (p.y - p.origY) / dist * ((dist - 5) * (1/10))) - p.origY =
      (p.y - p.origY) * (dist - (dist - 5) * (1/10)) / dist := by
    field_simp
    ring
  rw [e1, e2]
  have e3 : (p.x - p.origX) * (dist - (dist - 5) * (1/10)) / dist *
        ((p.x - p.origX) * (dist - (dist - 5) * (1/10)) / dist) +
      (p.y - p.origY) * (dist - (dist - 5) * (1/10)) / dist *
        ((p.y - p.origY) * (dist - (dist - 5) * (1/10)) / dist) =
      ((p.x - p.origX) * (p.x - p.origX) + (p.y - p.origY) * (p.y - p.origY)) /
          (dist * dist) *
        ((dist - (dist - 5) * (1/10)) * (dist - (dist - 5) * (1/10))) := by
    ring
  rw [e3, ← hsq, div_self (by positivity), one_mul]
  nlinarith

/-- C8 witness: the first-step decrease at the concrete displaced point
(distance 15, new distance 14). -/
theorem updatePoints_origin_return_decreases_witness :
    ((posAt (PointManager.updatePoints sqrtQ (fun _ => 1/2) 4000 4000
        [displacedPt]) 0).x -
      (posAt (PointManager.updatePoints sqrtQ (fun _ => 1/2) 4000 4000
        [displacedPt]) 0).origX) *
    ((posAt (PointManager.updatePoints sqrtQ (fun _ => 1/2) 4000 4000
        [displacedPt]) 0).x -
      (posAt (PointManager.updatePoints sqrtQ (fun _ => 1/2) 4000 4000
        [displacedPt]) 0).origX) +
    ((posAt (PointManager.updatePoints sqrtQ (fun _ => 1/2) 4000 4000
        [displacedPt]) 0).y -
      (posAt (PointManager.updatePoints sqrtQ (fun _ => 1/2) 4000 4000
        [displacedPt]) 0).origY) *
    ((posAt (PointManager.updatePoints sqrtQ (fun _ => 1/2) 4000 4000
        [displacedPt]) 0).y -
      (posAt (PointManager.updatePoints sqrtQ (fun _ => 1/2) 4000 4000
        [displacedPt]) 0).origY) <
    (displacedPt.x - displacedPt.origX) * (displacedPt.x - displacedPt.origX) +
      (displacedPt.y - displacedPt.origY) * (displacedPt.y - displacedPt.origY) :=
  updatePoints_origin_return_decreases sqrtQ 4000 4000 displacedPt
    (by decide) (by decide) 15 14 0 (by decide) (by decide) (by decide)
    (by decide) (by decide) (by decide) (by decide) (by decide) (by decide)

/-! ### C9 -/

/-- Lemma: `toUint32` always produces a 32-bit value. -/
theorem toUint32_lt (z : ℤ) : Triangle.toUint32 z < 2 ^ 32 := by
  unfold Triangle.toUint32
  have h32 : ((2 : ℤ) ^ 32) = 4294967296 := by norm_num
  rw [h32]
  have : (2 : ℕ) ^ 32 = 4294967296 := by norm_num
  rw [this]
  omega

/-- C9: `getColorSeed` is a deterministic function of the six vertex
coordinates alone: two triangles (over possibly different point tables and
states) with identical vertex positions yield the identical seed, and the
seed is a 32-bit unsigned value. -/
theorem getColorSeed_deterministic (pts pts2 : List Pt) (t t2 : Tri)
    (h1x : (posAt pts t.p1).x = (posAt pts2 t2.p1).x)
    (h1y : (posAt pts t.p1).y = (posAt pts2 t2.p1).y)
    (h2x : (posAt pts t.p2).x = (posAt pts2 t2.p2).x)
    (h2y : (posAt pts t.p2).y = (posAt pts2 t2.p2).y)
    (h3x : (posAt pts t.p3).x = (posAt pts2 t2.p3).x)
    (h3y : (posAt pts t.p3).y = (posAt pts2 t2.p3).y) :
    Triangle.getColorSeed pts t = Triangle.getColorSeed pts2 t2 ∧
    Triangle.getColorSeed pts t < 2 ^ 32 := by
  constructor
  · unfold Triangle.getColorSeed
    rw [h1x, h1y, h2x, h2y, h3x, h3y]
  · unfold Triangle.getColorSeed
    exact Nat.xor_lt_two_pow
      (Nat.xor_lt_two_pow
        (Nat.xor_lt_two_pow
          (Nat.xor_lt_two_pow
            (Nat.xor_lt_two_pow (toUint32_lt _) (toUint32_lt _))
            (toUint32_lt _))
          (toUint32_lt _))
        (toUint32_lt _))
      (toUint32_lt _)

/-- Two point tables with different kinematic state and ordering but the
same coordinates at the referenced slots. -/
def ptsSeedA : List Pt :=
  [{ x := 3/2, y := -2, vx := 0, vy := 0, origX := 0, origY := 0 },
   mkPos 4 5, mkPos (-1) (7/3)]

/-- The same coordinates at permuted slots with different velocities. -/
def ptsSeedB : List Pt :=
  [mkPos 4 5,
   { x := 3/2, y := -2, vx := 9, vy := 9, origX := 1, origY := 1 },
   mkPos (-1) (7/3)]

/-- C9 witness: identical vertex positions across two different tables give
the identical seed, below `2 ^ 32`. -/
theorem getColorSeed_deterministic_witness :
    Triangle.getColorSeed ptsSeedA ⟨0, 1, 2⟩ =
      Triangle.getColorSeed ptsSeedB ⟨1, 0, 2⟩ ∧
    Triangle.getColorSeed ptsSeedA ⟨0, 1, 2⟩ < 2 ^ 32 :=
  getColorSeed_deterministic ptsSeedA ptsSeedB ⟨0, 1, 2⟩ ⟨1, 0, 2⟩
    (by decide) (by decide) (by decide) (by decide) (by decide) (by decide)

/-! ### C10 -/

/-- After `constrainToScreen` the position lies in the screen rectangle
(for nonnegative half-extents). -/
theorem constrainToScreen_bounds (hw2 hh2 b : ℚ) (hw0 : 0 ≤ hw2)
    (hh0 : 0 ≤ hh2) (p : Pt) :
    -hw2 ≤ (PointManager.constrainToScreen hw2 hh2 b p).x ∧
    (PointManager.constrainToScreen hw2 hh2 b p).x ≤ hw2 ∧
    -hh2 ≤ (PointManager.constrainToScreen hw2 hh2 b p).y ∧
    (PointManager.constrainToScreen hw2 hh2 b p).y ≤ hh2 := by
  unfold PointManager.constrainToScreen
  dsimp only
  split_ifs <;> (try dsimp only) <;> refine ⟨?_, ?_, ?_, ?_⟩ <;> linarith

/-- C10: after `updatePoints(screenWidth, screenHeight)` every live point
lies inside the screen rectangle, whatever the prior positions, velocities,
Brownian draws and square-root oracle values were (the boundary clamp is the
last position-changing step of the per-point update). -/
theorem updatePoints_in_bounds (sqrtFn : ℚ → ℚ) (r : ℕ → ℚ) (w h : ℚ)
    (hw : 0 ≤ w) (hh : 0 ≤ h) (pts : List Pt) :
    ∀ q ∈ PointManager.updatePoints sqrtFn r w h pts,
      -(w / 2) ≤ q.x ∧ q.x ≤ w / 2 ∧ -(h / 2) ≤ q.y ∧ q.y ≤ h / 2 := by
  intro q hq
  unfold PointManager.updatePoints at hq
  rw [List.mem_map] at hq
  obtain ⟨p1, -, rfl⟩ := hq
  unfold PointManager.integrateOne PointManager.applyFriction
  dsimp only
  exact constrainToScreen_bounds (w / 2) (h / 2) PhysicsConstants.BOUNCE_FACTOR
    (by linarith) (by linarith) _

/-- C10 witness: a point far outside a small screen is clamped into it after
one update. -/
theorem updatePoints_in_bounds_witness :
    -(10 / 2 : ℚ) ≤
        (posAt (PointManager.updatePoints sqrtQ (fun _ => 1/2) 10 10
          [mkPos 50 50]) 0).x ∧
    (posAt (PointManager.updatePoints sqrtQ (fun _ => 1/2) 10 10
          [mkPos 50 50]) 0).x ≤ 10 / 2 ∧
    -(10 / 2 : ℚ) ≤
        (posAt (PointManager.updatePoints sqrtQ (fun _ => 1/2) 10 10
          [mkPos 50 50]) 0).y ∧
    (posAt (PointManager.updatePoints sqrtQ (fun _ => 1/2) 10 10
          [mkPos 50 50]) 0).y ≤ 10 / 2 :=
  updatePoints_in_bounds sqrtQ (fun _ => 1/2) 10 10 (by norm_num) (by norm_num)
    [mkPos 50 50] _ (by decide)
